import Mathlib

set_option linter.unusedSectionVars false

/-!
Formal model of the `SimpleVector<Type>` container implemented in
`simple-vector/simple_vector.h`.

Modelling choices:
* `size_t` counters become `Nat` (all values involved are tiny, no overflow
  is reachable in the modelled operations).
* The owned buffer `ArrayPtr<Type> raw_ptr_` becomes a `List α` whose length
  is the number of allocated slots.
* Iterators (`Type*`) become indices into the buffer; `begin()` is index 0
  and `end()` is index `size_`, so an iterator argument `pos` is modelled by
  the index `std::distance(cbegin(), pos)`.
* The `std::` algorithms the header calls (`copy`, `move`, `move_backward`,
  `fill`, `equal`, `lexicographical_compare`) are modelled index-for-index on
  lists.  `std::move` of elements is modelled as copying, which is the
  observable behaviour for the value types the container is instantiated
  with (moved-from scalars keep their value, and moved-from slots are never
  part of the live range afterwards).
* `assert(...)` conditions are modelled as separate `Bool`-valued functions
  (`popBackAssert`, `insertAssert`, `eraseAssert`): the assertion *fires* in
  a debug build exactly when the modelled condition is `false`.
* `At`, which either returns an element or throws `std::out_of_range`,
  returns `Option α` paired with the (unchanged) vector state.
* `Resize` returns `Option`: `none` models the undefined behaviour of
  calling `std::fill(first, last, x)` with `first > last` (the loop runs off
  the end of the buffer), which the source does when shrinking.
-/

namespace SimpleVectorSpec

variable {α : Type} [Inhabited α]

/-- List of length `n` whose entry at index `i` is `f i`.  Every buffer an
index-based `std::` algorithm produces has this shape. -/
def buildList (n : Nat) (f : Nat → α) : List α :=
  (List.range n).map f

/-- The dynamic array: fields named exactly as in the header.  `raw_ptr_` is
the owned allocation; its length is the number of allocated slots. -/
structure SimpleVector (α : Type) where
  size_ : Nat
  capacity_ : Nat
  raw_ptr_ : List α
deriving DecidableEq

/-- Modelled from the spec: `array_ptr.h` is included by the header but is
not among the repository sources.  Per the spec (§6), `Buffer(n)` "allocates
n default-constructed-or-uninitialized slots"; modelled as `n` default
values. -/
def ArrayPtrAlloc (n : Nat) : List α :=
  List.replicate n (default : α)

/-- Model of `std::copy(src + a, src + b, dst + d)`: entries of `dst` at
indices `[d, d + (b - a))` are replaced by `src[a + (i - d)]`. -/
def stdCopy (src : List α) (a b : Nat) (dst : List α) (d : Nat) : List α :=
  buildList dst.length fun i =>
    if d ≤ i ∧ i < d + (b - a) then src.getD (a + (i - d)) default
    else dst.getD i default

/-- Model of `std::move(src + a, src + b, dst + d)`.  Moves are modelled as
copies (see the header comment of this file). -/
def stdMove (src : List α) (a b : Nat) (dst : List α) (d : Nat) : List α :=
  stdCopy src a b dst d

/-- Model of `std::move_backward(l + a, l + b, l + d)` within one buffer:
entries at indices `[d - (b - a), d)` are replaced by `l[i - (d - b)]`. -/
def stdMoveBackward (l : List α) (a b d : Nat) : List α :=
  buildList l.length fun i =>
    if d - (b - a) ≤ i ∧ i < d then l.getD (i - (d - b)) default
    else l.getD i default

/-- Model of `std::fill(l + a, l + b, x)` for a valid range `a ≤ b ≤ length`. -/
def stdFill (l : List α) (a b : Nat) (x : α) : List α :=
  buildList l.length fun i => if a ≤ i ∧ i < b then x else l.getD i default

/-- A `std::fill(l + a, l + b, x)` call has defined behaviour exactly when
`a ≤ b` and both iterators stay within the allocation; otherwise the fill
loop (`while (first != last) *first++ = x;`) runs past the buffer. -/
def stdFillDefined (l : List α) (a b : Nat) : Bool :=
  decide (a ≤ b ∧ b ≤ l.length)

/-- Model of `std::equal(first1, last1, first2)` as called with two ranges
of equal length (operator== compares sizes first). -/
def stdEqual [DecidableEq α] : List α → List α → Bool
  | [], _ => true
  | _ :: _, [] => false
  | x :: xs, y :: ys => decide (x = y) && stdEqual xs ys

/-- Model of `std::lexicographical_compare(first1, last1, first2, last2)`. -/
def lexicographicalCompare [LinearOrder α] : List α → List α → Bool
  | _, [] => false
  | [], _ :: _ => true
  | x :: xs, y :: ys =>
    if x < y then true else if y < x then false else lexicographicalCompare xs ys

/-- `GetSize()`. -/
def SimpleVector.GetSize (v : SimpleVector α) : Nat := v.size_

/-- `GetCapacity()`. -/
def SimpleVector.GetCapacity (v : SimpleVector α) : Nat := v.capacity_

/-- `IsEmpty()`: `!size_`. -/
def SimpleVector.IsEmpty (v : SimpleVector α) : Bool := v.size_ == 0

/-- A read through `operator[]` / `raw_ptr_[i]`. -/
def elementAt (v : SimpleVector α) (i : Nat) : α :=
  v.raw_ptr_.getD i default

/-- The live range `[begin(), end())`: the elements read at indices
`[0, size_)`. -/
def live (v : SimpleVector α) : List α :=
  buildList v.size_ fun i => elementAt v i

/-- Class invariant relied on throughout the header: the counters are
consistent and `capacity_` equals the number of allocated slots. -/
def WF (v : SimpleVector α) : Prop :=
  v.size_ ≤ v.capacity_ ∧ v.raw_ptr_.length = v.capacity_

instance (v : SimpleVector α) : Decidable (WF v) := by
  unfold WF; infer_instance

/-- `At(index)`: throws `std::out_of_range` (modelled `none`) when
`index >= size_`, else returns `raw_ptr_[index]`; the vector state is
returned unchanged in both cases (the method only reads). -/
def SimpleVector.At (v : SimpleVector α) (index : Nat) : Option α × SimpleVector α :=
  if index ≥ v.size_ then (none, v)
  else (some (v.raw_ptr_.getD index default), v)

/-- `Clear()`: `size_ = 0`. -/
def SimpleVector.Clear (v : SimpleVector α) : SimpleVector α :=
  { v with size_ := 0 }

/-- `Reserve(new_capacity)`: when `new_capacity >= capacity_`, allocate a new
buffer of `new_capacity` slots, `std::move(begin(), end(), new_items.Get())`,
swap it in and set `capacity_`; otherwise do nothing. -/
def SimpleVector.Reserve (v : SimpleVector α) (new_capacity : Nat) : SimpleVector α :=
  if new_capacity ≥ v.capacity_ then
    { v with
      raw_ptr_ := stdMove v.raw_ptr_ 0 v.size_ (ArrayPtrAlloc new_capacity) 0,
      capacity_ := new_capacity }
  else v

/-- `swap(other)`: exchanges `raw_ptr_`, `size_` and `capacity_`. -/
def swapVec (a b : SimpleVector α) : SimpleVector α × SimpleVector α :=
  (⟨b.size_, b.capacity_, b.raw_ptr_⟩, ⟨a.size_, a.capacity_, a.raw_ptr_⟩)

/-- The default constructor: `size_ = 0`, `capacity_ = 0`, null buffer. -/
def defaultCtor : SimpleVector α :=
  ⟨0, 0, []⟩

/-- `SimpleVector(ReserveProxyObj)`: default-initializes the members, then
calls `Reserve(reserve.GetCapacity())`. -/
def reserveCtor (capacity_to_reserve : Nat) : SimpleVector α :=
  SimpleVector.Reserve defaultCtor capacity_to_reserve

/-- The copy constructor: `size_(other.size_), capacity_(other.capacity_),
raw_ptr_(other.size_)`, then `std::copy(other.begin(), other.end(), begin())`.
Note the buffer is allocated with `other.size_` slots while `capacity_` is
initialized from `other.capacity_`. -/
def copyCtor (other : SimpleVector α) : SimpleVector α :=
  { size_ := other.size_,
    capacity_ := other.capacity_,
    raw_ptr_ := stdCopy other.raw_ptr_ 0 other.size_ (ArrayPtrAlloc other.size_) 0 }

/-- `SimpleVector(size_t size)`: `size_(size), capacity_(size),
raw_ptr_(size)`, then `std::fill(begin(), end(), Type{})`. -/
def sizeCtor (size : Nat) : SimpleVector α :=
  { size_ := size, capacity_ := size,
    raw_ptr_ := stdFill (ArrayPtrAlloc size) 0 size (default : α) }

/-- `SimpleVector(size_t size, const Type& value)`: as `sizeCtor` but filling
with `value`. -/
def sizeValueCtor (size : Nat) (value : α) : SimpleVector α :=
  { size_ := size, capacity_ := size,
    raw_ptr_ := stdFill (ArrayPtrAlloc size) 0 size value }

/-- `SimpleVector(std::initializer_list<Type> init)`: buffer of `init.size()`
slots, `std::copy(init.begin(), init.end(), begin())`. -/
def initListCtor (init : List α) : SimpleVector α :=
  { size_ := init.length, capacity_ := init.length,
    raw_ptr_ := stdCopy init 0 init.length (ArrayPtrAlloc init.length) 0 }

/-- `Resize(new_size)`.  The branch structure follows the source: when
`new_size <= capacity_` it fills `[begin() + size_, begin() + new_size)`
directly; otherwise it reserves `max(new_size, 2 * capacity_)` first and then
fills.  The fill range is inverted when `new_size < size_`, which is
undefined behaviour, modelled by `none`. -/
def SimpleVector.Resize (v : SimpleVector α) (new_size : Nat) : Option (SimpleVector α) :=
  if new_size ≤ v.capacity_ then
    if stdFillDefined v.raw_ptr_ v.size_ new_size then
      some { v with
        raw_ptr_ := stdFill v.raw_ptr_ v.size_ new_size (default : α),
        size_ := new_size }
    else none
  else
    let w := v.Reserve (max new_size (2 * v.capacity_))
    if stdFillDefined w.raw_ptr_ w.size_ new_size then
      some { w with
        raw_ptr_ := stdFill w.raw_ptr_ w.size_ new_size (default : α),
        size_ := new_size }
    else none

/-- `PushBack(item)` (both the `const Type&` and the `Type&&` overload have
the same observable effect): if `size_ < capacity_` write `raw_ptr_[size_]`,
else `Reserve(max(1, 2 * capacity_))` and then write `raw_ptr_[size_]`;
finally `++size_`. -/
def SimpleVector.PushBack (v : SimpleVector α) (item : α) : SimpleVector α :=
  if v.size_ < v.capacity_ then
    { v with raw_ptr_ := v.raw_ptr_.set v.size_ item, size_ := v.size_ + 1 }
  else
    let w := v.Reserve (max 1 (2 * v.capacity_))
    { w with raw_ptr_ := w.raw_ptr_.set w.size_ item, size_ := w.size_ + 1 }

/-- The condition of `PopBack`'s `assert(IsEmpty())`: the debug assertion
fires exactly when this is `false`. -/
def popBackAssert (v : SimpleVector α) : Bool :=
  v.IsEmpty

/-- `PopBack()`: `--size_` (the effect in a build where the assertion does
not abort). -/
def SimpleVector.PopBack (v : SimpleVector α) : SimpleVector α :=
  { v with size_ := v.size_ - 1 }

/-- The condition of `Insert`'s `assert(pos > begin() || pos < end())`, with
`pos` the index `p`:  `pos > begin()` is `p > 0` and `pos < end()` is
`p < size_`. -/
def insertAssert (v : SimpleVector α) (p : Nat) : Bool :=
  decide (0 < p) || decide (p < v.size_)

/-- The condition of `Erase`'s `assert(pos > begin() || pos < end())`. -/
def eraseAssert (v : SimpleVector α) (p : Nat) : Bool :=
  decide (0 < p) || decide (p < v.size_)

/-- Private helper `VectorMove(pos)`: `number_pos` is
`std::distance(cbegin(), pos)`, i.e. the index of `pos`, which is how the
iterator parameter is modelled.  Shifts the tail `[pos, end())` one slot
right (growing first when at capacity: `Reserve(1)` when `capacity_ == 0`,
else `Reserve(2 * capacity_)` followed by the shift), then `++size_` and
returns `number_pos`. -/
def SimpleVector.VectorMove (v : SimpleVector α) (number_pos : Nat) : SimpleVector α × Nat :=
  if v.size_ < v.capacity_ then
    let w := { v with raw_ptr_ := stdMoveBackward v.raw_ptr_ number_pos v.size_ (v.size_ + 1) }
    ({ w with size_ := w.size_ + 1 }, number_pos)
  else if v.capacity_ = 0 then
    let w := v.Reserve 1
    ({ w with size_ := w.size_ + 1 }, number_pos)
  else
    let w := v.Reserve (2 * v.capacity_)
    let w := { w with raw_ptr_ := stdMoveBackward w.raw_ptr_ number_pos w.size_ (w.size_ + 1) }
    ({ w with size_ := w.size_ + 1 }, number_pos)

/-- `Insert(pos, value)` (both overloads have the same observable effect):
`VectorMove(pos)`, then `raw_ptr_[number_pos] = value`, returning the
iterator `&raw_ptr_[number_pos]`, i.e. the index `number_pos`. -/
def SimpleVector.Insert (v : SimpleVector α) (pos : Nat) (value : α) : SimpleVector α × Nat :=
  let r := v.VectorMove pos
  ({ r.1 with raw_ptr_ := r.1.raw_ptr_.set r.2 value }, r.2)

/-- `Erase(pos)`: `it = &raw_ptr_[distance(cbegin(), pos)]`, then
`std::move(it + 1, end(), it)`, `--size_`, returning `it` (the index `pos`). -/
def SimpleVector.Erase (v : SimpleVector α) (pos : Nat) : SimpleVector α × Nat :=
  ({ v with
      raw_ptr_ := stdMove v.raw_ptr_ (pos + 1) v.size_ v.raw_ptr_ pos,
      size_ := v.size_ - 1 }, pos)

/-- `operator==`: sizes first, then `std::equal` over the live ranges. -/
def vecEq [DecidableEq α] (lhs rhs : SimpleVector α) : Bool :=
  if lhs.GetSize ≠ rhs.GetSize then false
  else stdEqual (live lhs) (live rhs)

/-- `operator!=`. -/
def vecNe [DecidableEq α] (lhs rhs : SimpleVector α) : Bool :=
  !(vecEq lhs rhs)

/-- `operator<`: `std::lexicographical_compare` over the live ranges. -/
def vecLt [LinearOrder α] (lhs rhs : SimpleVector α) : Bool :=
  lexicographicalCompare (live lhs) (live rhs)

/-- `operator<=`: `!(rhs < lhs)`. -/
def vecLe [LinearOrder α] (lhs rhs : SimpleVector α) : Bool :=
  !(vecLt rhs lhs)

/-- `operator>`: `rhs < lhs`. -/
def vecGt [LinearOrder α] (lhs rhs : SimpleVector α) : Bool :=
  vecLt rhs lhs

/-- `operator>=`: `!(lhs < rhs)`. -/
def vecGe [LinearOrder α] (lhs rhs : SimpleVector α) : Bool :=
  !(vecLt lhs rhs)

/-- A sequence of `PushBack` calls. -/
def pushAll (v : SimpleVector α) (xs : List α) : SimpleVector α :=
  xs.foldl SimpleVector.PushBack v

/-! ### Basic lemmas about the list-level building blocks -/

theorem buildList_length (n : Nat) (f : Nat → α) : (buildList n f).length = n := by
  simp [buildList]

theorem buildList_getD (n : Nat) (f : Nat → α) (i : Nat) (d : α) :
    (buildList n f).getD i d = if i < n then f i else d := by
  rcases Nat.lt_or_ge i n with h | h
  · rw [if_pos h, List.getD_eq_getElem?_getD, buildList, List.getElem?_map]
    simp [List.getElem?_range, h]
  · rw [if_neg (Nat.not_lt.mpr h), List.getD_eq_getElem?_getD, List.getElem?_eq_none]
    · rfl
    · simpa [buildList_length] using h

theorem set_getD_self (l : List α) (j : Nat) (x d : α) (h : j < l.length) :
    (l.set j x).getD j d = x := by
  simp [List.getD_eq_getElem?_getD, List.getElem?_set_self, h]

theorem set_getD_ne (l : List α) (i j : Nat) (x d : α) (h : i ≠ j) :
    (l.set j x).getD i d = l.getD i d := by
  simp [List.getD_eq_getElem?_getD, List.getElem?_set_ne (Ne.symm h)]

/-! ### Characterizations of the operations on well-formed vectors -/

theorem Reserve_spec (v : SimpleVector α) (hwf : WF v) (n : Nat) :
    WF (v.Reserve n) ∧ (v.Reserve n).size_ = v.size_ ∧
    (v.Reserve n).capacity_ = max n v.capacity_ ∧
    (∀ i, i < v.size_ → elementAt (v.Reserve n) i = elementAt v i) ∧
    (n < v.capacity_ → v.Reserve n = v) := by
  obtain ⟨hsc, hlen⟩ := hwf
  by_cases h : n ≥ v.capacity_
  · have hres : v.Reserve n =
        { v with raw_ptr_ := stdMove v.raw_ptr_ 0 v.size_ (ArrayPtrAlloc n) 0,
                 capacity_ := n } := by
      simp [SimpleVector.Reserve, h]
    have halen : (ArrayPtrAlloc n : List α).length = n := by
      simp [ArrayPtrAlloc]
    rw [hres]
    refine ⟨⟨?_, ?_⟩, rfl, ?_, ?_, ?_⟩
    · show v.size_ ≤ n
      omega
    · show (stdMove v.raw_ptr_ 0 v.size_ (ArrayPtrAlloc n) 0).length = n
      simp [stdMove, stdCopy, buildList_length, ArrayPtrAlloc]
    · show n = max n v.capacity_
      omega
    · intro i hi
      show (stdMove v.raw_ptr_ 0 v.size_ (ArrayPtrAlloc n) 0).getD i default =
        v.raw_ptr_.getD i default
      rw [stdMove, stdCopy, buildList_getD, halen, if_pos (by omega),
        if_pos (by omega)]
      simp
    · intro hlt
      exact absurd hlt (by omega)
  · have hres : v.Reserve n = v := by
      simp [SimpleVector.Reserve, h]
    rw [hres]
    exact ⟨⟨hsc, hlen⟩, rfl, by omega, fun i _ => rfl, fun _ => rfl⟩

theorem PushBack_spec (v : SimpleVector α) (hwf : WF v) (x : α) :
    WF (v.PushBack x) ∧
    (v.PushBack x).size_ = v.size_ + 1 ∧
    (v.PushBack x).capacity_ =
      (if v.size_ < v.capacity_ then v.capacity_ else max 1 (2 * v.capacity_)) ∧
    elementAt (v.PushBack x) v.size_ = x ∧
    (∀ i, i < v.size_ → elementAt (v.PushBack x) i = elementAt v i) := by
  obtain ⟨hsc, hlen⟩ := hwf
  by_cases h : v.size_ < v.capacity_
  · have hres : v.PushBack x =
        { v with raw_ptr_ := v.raw_ptr_.set v.size_ x, size_ := v.size_ + 1 } := by
      simp [SimpleVector.PushBack, h]
    rw [hres, if_pos h]
    refine ⟨⟨?_, ?_⟩, rfl, rfl, ?_, ?_⟩
    · show v.size_ + 1 ≤ v.capacity_
      omega
    · show (v.raw_ptr_.set v.size_ x).length = v.capacity_
      simp [hlen]
    · show (v.raw_ptr_.set v.size_ x).getD v.size_ default = x
      exact set_getD_self _ _ _ _ (by omega)
    · intro i hi
      show (v.raw_ptr_.set v.size_ x).getD i default = v.raw_ptr_.getD i default
      exact set_getD_ne _ _ _ _ _ (by omega)
  · obtain ⟨⟨hsc2, hlen2⟩, hsz, hcap, helem, _⟩ :=
      Reserve_spec v ⟨hsc, hlen⟩ (max 1 (2 * v.capacity_))
    have hres : v.PushBack x =
        { v.Reserve (max 1 (2 * v.capacity_)) with
          raw_ptr_ := (v.Reserve (max 1 (2 * v.capacity_))).raw_ptr_.set
            (v.Reserve (max 1 (2 * v.capacity_))).size_ x,
          size_ := (v.Reserve (max 1 (2 * v.capacity_))).size_ + 1 } := by
      simp [SimpleVector.PushBack, h]
    rw [hres, if_neg h]
    refine ⟨⟨?_, ?_⟩, ?_, ?_, ?_, ?_⟩
    · show (v.Reserve (max 1 (2 * v.capacity_))).size_ + 1 ≤
        (v.Reserve (max 1 (2 * v.capacity_))).capacity_
      omega
    · show ((v.Reserve (max 1 (2 * v.capacity_))).raw_ptr_.set
          (v.Reserve (max 1 (2 * v.capacity_))).size_ x).length =
        (v.Reserve (max 1 (2 * v.capacity_))).capacity_
      simp [hlen2]
    · show (v.Reserve (max 1 (2 * v.capacity_))).size_ + 1 = v.size_ + 1
      omega
    · show (v.Reserve (max 1 (2 * v.capacity_))).capacity_ = max 1 (2 * v.capacity_)
      omega
    · show ((v.Reserve (max 1 (2 * v.capacity_))).raw_ptr_.set
          (v.Reserve (max 1 (2 * v.capacity_))).size_ x).getD v.size_ default = x
      rw [← hsz]
      exact set_getD_self _ _ _ _ (by omega)
    · intro i hi
      show ((v.Reserve (max 1 (2 * v.capacity_))).raw_ptr_.set
          (v.Reserve (max 1 (2 * v.capacity_))).size_ x).getD i default =
        v.raw_ptr_.getD i default
      rw [set_getD_ne _ _ _ _ _ (by omega)]
      exact helem i hi

theorem pushAll_spec (xs : List α) : ∀ (v : SimpleVector α), WF v →
    WF (pushAll v xs) ∧
    (pushAll v xs).size_ = v.size_ + xs.length ∧
    (∀ i, i < v.size_ → elementAt (pushAll v xs) i = elementAt v i) ∧
    (∀ j, j < xs.length → elementAt (pushAll v xs) (v.size_ + j) = xs.getD j default) := by
  induction xs with
  | nil =>
    intro v hwf
    exact ⟨hwf, by simp [pushAll], fun i _ => rfl, fun j hj => by simp at hj⟩
  | cons x xs ih =>
    intro v hwf
    obtain ⟨hwf2, hsz, hcap, hnew, hold⟩ := PushBack_spec v hwf x
    obtain ⟨ihwf, ihsz, ihold, ihnew⟩ := ih (v.PushBack x) hwf2
    have hpa : pushAll v (x :: xs) = pushAll (v.PushBack x) xs := rfl
    rw [hpa]
    refine ⟨ihwf, by rw [ihsz, hsz, List.length_cons]; omega, ?_, ?_⟩
    · intro i hi
      rw [ihold i (by omega), hold i hi]
    · intro j hj
      match j with
      | 0 =>
        have h0 : v.size_ + 0 = v.size_ := by omega
        rw [h0, ihold v.size_ (by omega), hnew, List.getD_cons_zero]
      | Nat.succ j' =>
        have h1 : v.size_ + (j' + 1) = (v.PushBack x).size_ + j' := by omega
        rw [h1, ihnew j' (by simpa using hj), List.getD_cons_succ]

theorem VectorMove_spec (v : SimpleVector α) (hwf : WF v) (p : Nat) (hp : p ≤ v.size_) :
    (v.VectorMove p).2 = p ∧
    (v.VectorMove p).1.size_ = v.size_ + 1 ∧
    (v.VectorMove p).1.size_ ≤ (v.VectorMove p).1.capacity_ ∧
    (v.VectorMove p).1.raw_ptr_.length = (v.VectorMove p).1.capacity_ ∧
    (∀ i, i < p → elementAt (v.VectorMove p).1 i = elementAt v i) ∧
    (∀ i, p < i → i ≤ v.size_ → elementAt (v.VectorMove p).1 i = elementAt v (i - 1)) := by
  obtain ⟨hsc, hlen⟩ := hwf
  by_cases h : v.size_ < v.capacity_
  · have hres : v.VectorMove p =
        ({ v with raw_ptr_ := stdMoveBackward v.raw_ptr_ p v.size_ (v.size_ + 1),
                  size_ := v.size_ + 1 }, p) := by
      simp [SimpleVector.VectorMove, h]
    rw [hres]
    refine ⟨rfl, rfl, ?_, ?_, ?_, ?_⟩
    · show v.size_ + 1 ≤ v.capacity_
      omega
    · show (stdMoveBackward v.raw_ptr_ p v.size_ (v.size_ + 1)).length = v.capacity_
      simp [stdMoveBackward, buildList_length, hlen]
    · intro i hi
      show (stdMoveBackward v.raw_ptr_ p v.size_ (v.size_ + 1)).getD i default =
        v.raw_ptr_.getD i default
      rw [stdMoveBackward, buildList_getD, if_pos (by omega), if_neg (by omega)]
    · intro i hi1 hi2
      show (stdMoveBackward v.raw_ptr_ p v.size_ (v.size_ + 1)).getD i default =
        v.raw_ptr_.getD (i - 1) default
      rw [stdMoveBackward, buildList_getD, if_pos (by omega), if_pos (by omega)]
      have hidx : i - (v.size_ + 1 - v.size_) = i - 1 := by omega
      rw [hidx]
  · by_cases h0 : v.capacity_ = 0
    · have hres : v.VectorMove p =
          ({ v.Reserve 1 with size_ := (v.Reserve 1).size_ + 1 }, p) := by
        simp [SimpleVector.VectorMove, h, h0]
      obtain ⟨⟨hsc2, hlen2⟩, hsz, hcap, helem, _⟩ := Reserve_spec v ⟨hsc, hlen⟩ 1
      rw [hres]
      refine ⟨rfl, ?_, ?_, ?_, ?_, ?_⟩
      · show (v.Reserve 1).size_ + 1 = v.size_ + 1
        omega
      · show (v.Reserve 1).size_ + 1 ≤ (v.Reserve 1).capacity_
        omega
      · show (v.Reserve 1).raw_ptr_.length = (v.Reserve 1).capacity_
        exact hlen2
      · intro i hi
        exact absurd hi (by omega)
      · intro i hi1 hi2
        exact absurd hi2 (by omega)
    · have hres : v.VectorMove p =
          ({ v.Reserve (2 * v.capacity_) with
             raw_ptr_ := stdMoveBackward (v.Reserve (2 * v.capacity_)).raw_ptr_ p
               (v.Reserve (2 * v.capacity_)).size_
               ((v.Reserve (2 * v.capacity_)).size_ + 1),
             size_ := (v.Reserve (2 * v.capacity_)).size_ + 1 }, p) := by
        simp [SimpleVector.VectorMove, h, h0]
      obtain ⟨⟨hsc2, hlen2⟩, hsz, hcap, helem, _⟩ :=
        Reserve_spec v ⟨hsc, hlen⟩ (2 * v.capacity_)
      rw [hres]
      refine ⟨rfl, ?_, ?_, ?_, ?_, ?_⟩
      · show (v.Reserve (2 * v.capacity_)).size_ + 1 = v.size_ + 1
        omega
      · show (v.Reserve (2 * v.capacity_)).size_ + 1 ≤ (v.Reserve (2 * v.capacity_)).capacity_
        omega
      · show (stdMoveBackward (v.Reserve (2 * v.capacity_)).raw_ptr_ p
            (v.Reserve (2 * v.capacity_)).size_
            ((v.Reserve (2 * v.capacity_)).size_ + 1)).length =
          (v.Reserve (2 * v.capacity_)).capacity_
        simp [stdMoveBackward, buildList_length, hlen2]
      · intro i hi
        show (stdMoveBackward (v.Reserve (2 * v.capacity_)).raw_ptr_ p
            (v.Reserve (2 * v.capacity_)).size_
            ((v.Reserve (2 * v.capacity_)).size_ + 1)).getD i default =
          v.raw_ptr_.getD i default
        rw [stdMoveBackward, buildList_getD, if_pos (by omega), if_neg (by omega)]
        exact helem i (by omega)
      · intro i hi1 hi2
        show (stdMoveBackward (v.Reserve (2 * v.capacity_)).raw_ptr_ p
            (v.Reserve (2 * v.capacity_)).size_
            ((v.Reserve (2 * v.capacity_)).size_ + 1)).getD i default =
          v.raw_ptr_.getD (i - 1) default
        rw [stdMoveBackward, buildList_getD, if_pos (by omega), if_pos (by omega)]
        have hidx : i - ((v.Reserve (2 * v.capacity_)).size_ + 1 -
            (v.Reserve (2 * v.capacity_)).size_) = i - 1 := by omega
        rw [hidx]
        exact helem (i - 1) (by omega)

theorem Insert_spec (v : SimpleVector α) (hwf : WF v) (p : Nat) (hp : p ≤ v.size_) (x : α) :
    WF (v.Insert p x).1 ∧
    (v.Insert p x).2 = p ∧
    (v.Insert p x).1.size_ = v.size_ + 1 ∧
    elementAt (v.Insert p x).1 p = x ∧
    (∀ i, i < p → elementAt (v.Insert p x).1 i = elementAt v i) ∧
    (∀ i, p < i → i ≤ v.size_ → elementAt (v.Insert p x).1 i = elementAt v (i - 1)) := by
  obtain ⟨hret, hsz, hsc, hlen, hlow, hhigh⟩ := VectorMove_spec v hwf p hp
  have hres : v.Insert p x =
      ({ (v.VectorMove p).1 with
         raw_ptr_ := (v.VectorMove p).1.raw_ptr_.set (v.VectorMove p).2 x },
       (v.VectorMove p).2) := rfl
  rw [hres, hret]
  refine ⟨⟨?_, ?_⟩, rfl, ?_, ?_, ?_, ?_⟩
  · show (v.VectorMove p).1.size_ ≤ (v.VectorMove p).1.capacity_
    omega
  · show ((v.VectorMove p).1.raw_ptr_.set p x).length = (v.VectorMove p).1.capacity_
    simp [hlen]
  · exact hsz
  · show ((v.VectorMove p).1.raw_ptr_.set p x).getD p default = x
    exact set_getD_self _ _ _ _ (by omega)
  · intro i hi
    show ((v.VectorMove p).1.raw_ptr_.set p x).getD i default = elementAt v i
    rw [set_getD_ne _ _ _ _ _ (by omega)]
    exact hlow i hi
  · intro i hi1 hi2
    show ((v.VectorMove p).1.raw_ptr_.set p x).getD i default = elementAt v (i - 1)
    rw [set_getD_ne _ _ _ _ _ (by omega)]
    exact hhigh i hi1 hi2

theorem Erase_spec (v : SimpleVector α) (hwf : WF v) (p : Nat) (hp : p < v.size_) :
    WF (v.Erase p).1 ∧ (v.Erase p).2 = p ∧
    (v.Erase p).1.size_ = v.size_ - 1 ∧
    (v.Erase p).1.capacity_ = v.capacity_ ∧
    (∀ i, i < p → elementAt (v.Erase p).1 i = elementAt v i) ∧
    (∀ i, p ≤ i → i < v.size_ - 1 → elementAt (v.Erase p).1 i = elementAt v (i + 1)) := by
  obtain ⟨hsc, hlen⟩ := hwf
  have hres : v.Erase p =
      ({ v with raw_ptr_ := stdMove v.raw_ptr_ (p + 1) v.size_ v.raw_ptr_ p,
                size_ := v.size_ - 1 }, p) := rfl
  rw [hres]
  refine ⟨⟨?_, ?_⟩, rfl, rfl, rfl, ?_, ?_⟩
  · show v.size_ - 1 ≤ v.capacity_
    omega
  · show (stdMove v.raw_ptr_ (p + 1) v.size_ v.raw_ptr_ p).length = v.capacity_
    simp [stdMove, stdCopy, buildList_length, hlen]
  · intro i hi
    show (stdMove v.raw_ptr_ (p + 1) v.size_ v.raw_ptr_ p).getD i default =
      v.raw_ptr_.getD i default
    rw [stdMove, stdCopy, buildList_getD, if_pos (by omega), if_neg (by omega)]
  · intro i hi1 hi2
    show (stdMove v.raw_ptr_ (p + 1) v.size_ v.raw_ptr_ p).getD i default =
      v.raw_ptr_.getD (i + 1) default
    rw [stdMove, stdCopy, buildList_getD, if_pos (by omega), if_pos (by omega)]
    have hidx : p + 1 + (i - p) = i + 1 := by omega
    rw [hidx]

/-! ### Theorems settling the claims that the code refutes -/

/-- C1: the claim states that copy construction produces a copy whose
reported `capacity()` equals the source's `size()`, allocating a fresh
buffer of exactly the source's size.  Evaluating the code at a source of
size 1 with spare capacity 2: the copy does allocate a 1-slot buffer and
holds the same size and elements, but its reported `GetCapacity()` is 2
(the source's capacity), not 1 (the source's size) — `capacity_` is
copy-initialized from `other.capacity_` while `raw_ptr_` is allocated with
`other.size_` slots. -/
theorem C1_copy_capacity_bug :
    (SimpleVector.Reserve (sizeCtor 1 : SimpleVector Nat) 2).GetSize = 1 ∧
    (SimpleVector.Reserve (sizeCtor 1 : SimpleVector Nat) 2).GetCapacity = 2 ∧
    (copyCtor (SimpleVector.Reserve (sizeCtor 1 : SimpleVector Nat) 2)).GetSize = 1 ∧
    (copyCtor (SimpleVector.Reserve (sizeCtor 1 : SimpleVector Nat) 2)).GetCapacity = 2 ∧
    (copyCtor (SimpleVector.Reserve (sizeCtor 1 : SimpleVector Nat) 2)).raw_ptr_.length = 1 := by
  decide

/-- C2: the claim states that `PopBack`'s debug assertion checks
non-emptiness and therefore does not fire on a non-empty array.  The code
asserts `IsEmpty()`, so on the non-empty array `SimpleVector<int>(1, 5)`
the asserted condition is `false` and the assertion fires; the decrement
effect itself (size 1 → 0, capacity unchanged) matches the claim. -/
theorem C2_popback_assert_fires :
    (sizeValueCtor 1 (5 : Nat)).IsEmpty = false ∧
    popBackAssert (sizeValueCtor 1 (5 : Nat)) = false ∧
    (sizeValueCtor 1 (5 : Nat)).PopBack.GetSize = 0 ∧
    (sizeValueCtor 1 (5 : Nat)).PopBack.GetCapacity = 1 ∧
    elementAt (sizeValueCtor 1 (5 : Nat)).PopBack 0 = 5 := by
  decide

/-- C3: the claim states that `Insert` at any `p ≤ size` — including an
append at the end of an empty array — does not fire the debug assertion.
The code asserts `pos > begin() || pos < end()`, which is `false` when the
array is empty and `pos = begin() = end()`: inserting `7` at position 0 of
an empty array fires the assertion, even though the insert effect itself is
the correct append (size 1, element 7 at index 0, capacity grown to 1). -/
theorem C3_insert_assert_fires_on_empty_append :
    insertAssert (defaultCtor : SimpleVector Nat) 0 = false ∧
    ((defaultCtor : SimpleVector Nat).Insert 0 7).2 = 0 ∧
    ((defaultCtor : SimpleVector Nat).Insert 0 7).1.GetSize = 1 ∧
    ((defaultCtor : SimpleVector Nat).Insert 0 7).1.GetCapacity = 1 ∧
    elementAt ((defaultCtor : SimpleVector Nat).Insert 0 7).1 0 = 7 := by
  decide

/-- C4: the claim states that `Resize(n)` always ends with `size() == n`,
keeping elements below `min(oldSize, n)`.  For `n < oldSize` the code calls
`std::fill(begin() + size_, begin() + new_size, Type())` with an inverted
iterator range, which is undefined behaviour (modelled `none`): shrinking
`SimpleVector<int>(2, 5)` to 1 is undefined, while growing it to 3 behaves
as claimed (size 3, capacity `max(3, 2*2) = 4`, live elements `[5,5,0]`). -/
theorem C4_resize_shrink_undefined :
    (sizeValueCtor 2 (5 : Nat)).Resize 1 = none ∧
    ((sizeValueCtor 2 (5 : Nat)).Resize 3).map (fun w => (w.GetSize, w.GetCapacity, live w)) =
      some (3, 4, [5, 5, 0]) := by
  decide

/-- C5: for every well-formed array and every `n`, `Reserve(n)` never
decreases `GetCapacity()`, never changes `GetSize()` or the live element
values at indices `[0, size)`, and when `n < capacity` it is a complete
no-op on the observable state. -/
theorem C5_reserve_frame (v : SimpleVector α) (hwf : WF v) (n : Nat) :
    v.GetCapacity ≤ (v.Reserve n).GetCapacity ∧
    (v.Reserve n).GetSize = v.GetSize ∧
    (∀ i, i < v.GetSize → elementAt (v.Reserve n) i = elementAt v i) ∧
    (n < v.GetCapacity → v.Reserve n = v) := by
  obtain ⟨_, hsz, hcap, helem, hnoop⟩ := Reserve_spec v hwf n
  refine ⟨?_, hsz, helem, hnoop⟩
  show v.capacity_ ≤ (v.Reserve n).capacity_
  omega

/-- Witness for C5 at the concrete input `SimpleVector<int> v(1)` with
`Reserve(5)`. -/
theorem C5_reserve_frame_witness :
    WF (sizeCtor 1 : SimpleVector Nat) ∧
    ((sizeCtor 1 : SimpleVector Nat).GetCapacity ≤
        ((sizeCtor 1 : SimpleVector Nat).Reserve 5).GetCapacity ∧
      ((sizeCtor 1 : SimpleVector Nat).Reserve 5).GetSize =
        (sizeCtor 1 : SimpleVector Nat).GetSize ∧
      (∀ i, i < (sizeCtor 1 : SimpleVector Nat).GetSize →
        elementAt ((sizeCtor 1 : SimpleVector Nat).Reserve 5) i =
          elementAt (sizeCtor 1 : SimpleVector Nat) i) ∧
      (5 < (sizeCtor 1 : SimpleVector Nat).GetCapacity →
        (sizeCtor 1 : SimpleVector Nat).Reserve 5 = (sizeCtor 1 : SimpleVector Nat))) :=
  ⟨by decide, C5_reserve_frame (sizeCtor 1) (by decide) 5⟩

/-- C6: for every well-formed array and every finite sequence of `PushBack`
calls, the final size is the initial size plus the number of calls, each
pushed value lands at the index that was `size` at its call (so every
previously pushed element stays at its original relative position, and the
elements present before the sequence are unchanged); a single call
increases size by exactly 1 and places the value at the old `size`, and a
call finding `size == capacity` grows capacity to `max(1, 2*capacity)`. -/
theorem C6_pushback_sequence (v : SimpleVector α) (hwf : WF v) (xs : List α) :
    WF (pushAll v xs) ∧
    (pushAll v xs).GetSize = v.GetSize + xs.length ∧
    (∀ i, i < v.GetSize → elementAt (pushAll v xs) i = elementAt v i) ∧
    (∀ j, j < xs.length → elementAt (pushAll v xs) (v.GetSize + j) = xs.getD j default) ∧
    (∀ x, (v.PushBack x).GetSize = v.GetSize + 1 ∧ elementAt (v.PushBack x) v.GetSize = x) ∧
    (∀ x, v.GetSize = v.GetCapacity →
      (v.PushBack x).GetCapacity = max 1 (2 * v.GetCapacity)) := by
  obtain ⟨h1, h2, h3, h4⟩ := pushAll_spec xs v hwf
  refine ⟨h1, h2, h3, h4, ?_, ?_⟩
  · intro x
    obtain ⟨_, hsz, _, hnew, _⟩ := PushBack_spec v hwf x
    exact ⟨hsz, hnew⟩
  · intro x hfull
    obtain ⟨_, _, hcap, _, _⟩ := PushBack_spec v hwf x
    show (v.PushBack x).capacity_ = max 1 (2 * v.GetCapacity)
    rw [hcap, if_neg (by simp [SimpleVector.GetSize, SimpleVector.GetCapacity] at hfull; omega)]
    rfl

/-- Witness for C6 at the concrete input: an empty vector receiving
`PushBack(1); PushBack(2); PushBack(3)`. -/
theorem C6_pushback_sequence_witness :
    WF (defaultCtor : SimpleVector Nat) ∧
    (WF (pushAll (defaultCtor : SimpleVector Nat) [1, 2, 3]) ∧
      (pushAll (defaultCtor : SimpleVector Nat) [1, 2, 3]).GetSize =
        (defaultCtor : SimpleVector Nat).GetSize + [1, 2, 3].length ∧
      (∀ i, i < (defaultCtor : SimpleVector Nat).GetSize →
        elementAt (pushAll (defaultCtor : SimpleVector Nat) [1, 2, 3]) i =
          elementAt (defaultCtor : SimpleVector Nat) i) ∧
      (∀ j, j < [1, 2, 3].length →
        elementAt (pushAll (defaultCtor : SimpleVector Nat) [1, 2, 3])
          ((defaultCtor : SimpleVector Nat).GetSize + j) = [1, 2, 3].getD j default) ∧
      (∀ x, ((defaultCtor : SimpleVector Nat).PushBack x).GetSize =
          (defaultCtor : SimpleVector Nat).GetSize + 1 ∧
        elementAt ((defaultCtor : SimpleVector Nat).PushBack x)
          (defaultCtor : SimpleVector Nat).GetSize = x) ∧
      (∀ x, (defaultCtor : SimpleVector Nat).GetSize =
          (defaultCtor : SimpleVector Nat).GetCapacity →
        ((defaultCtor : SimpleVector Nat).PushBack x).GetCapacity =
          max 1 (2 * (defaultCtor : SimpleVector Nat).GetCapacity))) :=
  ⟨by decide, C6_pushback_sequence defaultCtor (by decide) [1, 2, 3]⟩

/-- C7: for every well-formed array and every valid position `p ≤ size`,
`Insert(p, x)` followed by `Erase(p)` restores the original live sequence:
the size and the value at every live index are as before. -/
theorem C7_insert_erase_roundtrip (v : SimpleVector α) (hwf : WF v) (p : Nat)
    (hp : p ≤ v.GetSize) (x : α) :
    (((v.Insert p x).1.Erase p).1.GetSize = v.GetSize) ∧
    (∀ i, i < v.GetSize → elementAt ((v.Insert p x).1.Erase p).1 i = elementAt v i) := by
  have hp' : p ≤ v.size_ := hp
  obtain ⟨hwf2, hret, hsz, hx, hlow, hhigh⟩ := Insert_spec v hwf p hp' x
  obtain ⟨hwf3, _, hsz3, _, hlow3, hhigh3⟩ :=
    Erase_spec (v.Insert p x).1 hwf2 p (by omega)
  constructor
  · show ((v.Insert p x).1.Erase p).1.size_ = v.size_
    omega
  · intro i hi
    have hi' : i < v.size_ := hi
    rcases Nat.lt_or_ge i p with hip | hip
    · rw [hlow3 i hip, hlow i hip]
    · rw [hhigh3 i hip (by omega), hhigh (i + 1) (by omega) (by omega)]
      norm_num

/-- Witness for C7 at the concrete input `[1, 2, 3]`, inserting `9` at
position 1 and erasing position 1. -/
theorem C7_insert_erase_roundtrip_witness :
    WF (initListCtor [1, 2, 3] : SimpleVector Nat) ∧
    1 ≤ (initListCtor [1, 2, 3] : SimpleVector Nat).GetSize ∧
    ((((initListCtor [1, 2, 3] : SimpleVector Nat).Insert 1 9).1.Erase 1).1.GetSize =
        (initListCtor [1, 2, 3] : SimpleVector Nat).GetSize ∧
      (∀ i, i < (initListCtor [1, 2, 3] : SimpleVector Nat).GetSize →
        elementAt ((((initListCtor [1, 2, 3] : SimpleVector Nat).Insert 1 9).1.Erase 1).1) i =
          elementAt (initListCtor [1, 2, 3] : SimpleVector Nat) i)) :=
  ⟨by decide, by decide, C7_insert_erase_roundtrip (initListCtor [1, 2, 3]) (by decide) 1 (by decide) 9⟩

/-- C10: the claim states that every public operation preserves the
invariant `capacity() = allocated buffer length` (with `size ≤ capacity`).
Copy construction violates it: copying a well-formed vector of size 1 and
capacity 2 yields a vector reporting capacity 2 over a 1-slot allocation. -/
theorem C10_copy_breaks_invariant :
    WF (SimpleVector.Reserve (sizeCtor 1 : SimpleVector Nat) 2) ∧
    ¬ WF (copyCtor (SimpleVector.Reserve (sizeCtor 1 : SimpleVector Nat) 2)) := by
  decide

/-! ### The comparison operators -/

theorem live_length (v : SimpleVector α) : (live v).length = v.size_ :=
  buildList_length v.size_ _

theorem live_getD (v : SimpleVector α) (i : Nat) (hi : i < v.size_) :
    (live v).getD i default = elementAt v i := by
  rw [live, buildList_getD, if_pos hi]

theorem stdEqual_iff [DecidableEq α] :
    ∀ (l r : List α), l.length = r.length →
      (stdEqual l r = true ↔ ∀ i, i < l.length → l.getD i default = r.getD i default) := by
  intro l
  induction l with
  | nil =>
    intro r h
    constructor
    · intro _ i hi
      simp at hi
    · intro _
      rfl
  | cons x xs ih =>
    intro r h
    cases r with
    | nil => simp at h
    | cons y ys =>
      have h' : xs.length = ys.length := by simpa using h
      rw [show stdEqual (x :: xs) (y :: ys) = (decide (x = y) && stdEqual xs ys) from rfl,
        Bool.and_eq_true]
      constructor
      · rintro ⟨hxy, hrest⟩ i hi
        match i with
        | 0 =>
          rw [List.getD_cons_zero, List.getD_cons_zero]
          exact of_decide_eq_true hxy
        | Nat.succ i' =>
          rw [List.getD_cons_succ, List.getD_cons_succ]
          exact ((ih ys h').mp hrest) i' (by simpa using hi)
      · intro hall
        refine ⟨decide_eq_true ?_, (ih ys h').mpr ?_⟩
        · have := hall 0 (by simp)
          simpa using this
        · intro i hi
          have := hall (i + 1) (by simp; omega)
          simpa using this

theorem vecEq_iff [DecidableEq α] (a b : SimpleVector α) :
    vecEq a b = true ↔
      (a.GetSize = b.GetSize ∧ ∀ i, i < a.GetSize → elementAt a i = elementAt b i) := by
  rw [vecEq]
  by_cases h : a.GetSize ≠ b.GetSize
  · rw [if_pos h]
    constructor
    · intro hfalse
      simp at hfalse
    · rintro ⟨h1, _⟩
      exact absurd h1 h
  · rw [if_neg h]
    push_neg at h
    have hlen : (live a).length = (live b).length := by
      rw [live_length, live_length]
      exact h
    rw [stdEqual_iff _ _ hlen]
    constructor
    · intro hall
      refine ⟨h, fun i hi => ?_⟩
      have hia : i < a.size_ := hi
      have hib : i < b.size_ := by
        have hsz : a.size_ = b.size_ := h
        omega
      have := hall i (by rw [live_length]; exact hia)
      rwa [live_getD a i hia, live_getD b i hib] at this
    · rintro ⟨_, hall⟩ i hi
      rw [live_length] at hi
      have hib : i < b.size_ := by
        have hsz : a.size_ = b.size_ := h
        omega
      rw [live_getD a i hi, live_getD b i hib]
      exact hall i hi

theorem lexCompare_shorter_equal_front [LinearOrder α] :
    ∀ (l r : List α), l.length < r.length →
      (∀ i, i < l.length → l.getD i default = r.getD i default) →
      lexicographicalCompare l r = true := by
  intro l
  induction l with
  | nil =>
    intro r h _
    cases r with
    | nil => simp at h
    | cons y ys => rfl
  | cons x xs ih =>
    intro r h he
    cases r with
    | nil => simp at h
    | cons y ys =>
      have hxy : x = y := by
        have := he 0 (by simp)
        simpa using this
      rw [show lexicographicalCompare (x :: xs) (y :: ys) =
        (if x < y then true else if y < x then false else lexicographicalCompare xs ys)
        from rfl, hxy, if_neg (lt_irrefl y), if_neg (lt_irrefl y)]
      refine ih ys (by simpa using h) (fun i hi => ?_)
      have := he (i + 1) (by simp; omega)
      simpa using this

/-- C8: for every pair of arrays, `vecEq` holds iff the sizes match and all
corresponding live elements are equal; the derived comparison operators
satisfy `a <= b ↔ ¬(b < a)`, `a > b ↔ b < a` and `a >= b ↔ ¬(a < b)`; and
`vecLt` is lexicographic on the live ranges, so an array whose live range
is a strictly shorter equal-valued front segment of another's sorts first
(e.g. `[7,7,7] < [7,7,7,7]`). -/
theorem C8_comparison_operators [DecidableEq α] [LinearOrder α] (a b : SimpleVector α) :
    (vecEq a b = true ↔
      (a.GetSize = b.GetSize ∧ ∀ i, i < a.GetSize → elementAt a i = elementAt b i)) ∧
    (vecLe a b = true ↔ ¬ (vecLt b a = true)) ∧
    (vecGt a b = true ↔ vecLt b a = true) ∧
    (vecGe a b = true ↔ ¬ (vecLt a b = true)) ∧
    (a.GetSize < b.GetSize → (∀ i, i < a.GetSize → elementAt a i = elementAt b i) →
      vecLt a b = true) := by
  refine ⟨vecEq_iff a b, ?_, Iff.rfl, ?_, ?_⟩
  · rw [vecLe]
    simp
  · rw [vecGe]
    simp
  · intro h he
    refine lexCompare_shorter_equal_front (live a) (live b) ?_ ?_
    · rw [live_length, live_length]
      exact h
    · intro i hi
      rw [live_length] at hi
      have hib : i < b.size_ := by
        have hab : a.size_ < b.size_ := h
        omega
      rw [live_getD a i hi, live_getD b i hib]
      exact he i hi

/-- Witness for C8 at the concrete pair `SimpleVector<int>(3, 7)` and
`SimpleVector<int>(4, 7)` (the shorter equal-valued sequence sorts first). -/
theorem C8_comparison_operators_witness :
    (vecEq (sizeValueCtor 3 (7 : Nat)) (sizeValueCtor 4 (7 : Nat)) = true ↔
      ((sizeValueCtor 3 (7 : Nat)).GetSize = (sizeValueCtor 4 (7 : Nat)).GetSize ∧
        ∀ i, i < (sizeValueCtor 3 (7 : Nat)).GetSize →
          elementAt (sizeValueCtor 3 (7 : Nat)) i = elementAt (sizeValueCtor 4 (7 : Nat)) i)) ∧
    (vecLe (sizeValueCtor 3 (7 : Nat)) (sizeValueCtor 4 (7 : Nat)) = true ↔
      ¬ (vecLt (sizeValueCtor 4 (7 : Nat)) (sizeValueCtor 3 (7 : Nat)) = true)) ∧
    (vecGt (sizeValueCtor 3 (7 : Nat)) (sizeValueCtor 4 (7 : Nat)) = true ↔
      vecLt (sizeValueCtor 4 (7 : Nat)) (sizeValueCtor 3 (7 : Nat)) = true) ∧
    (vecGe (sizeValueCtor 3 (7 : Nat)) (sizeValueCtor 4 (7 : Nat)) = true ↔
      ¬ (vecLt (sizeValueCtor 3 (7 : Nat)) (sizeValueCtor 4 (7 : Nat)) = true)) ∧
    ((sizeValueCtor 3 (7 : Nat)).GetSize < (sizeValueCtor 4 (7 : Nat)).GetSize →
      (∀ i, i < (sizeValueCtor 3 (7 : Nat)).GetSize →
        elementAt (sizeValueCtor 3 (7 : Nat)) i = elementAt (sizeValueCtor 4 (7 : Nat)) i) →
      vecLt (sizeValueCtor 3 (7 : Nat)) (sizeValueCtor 4 (7 : Nat)) = true) :=
  C8_comparison_operators (sizeValueCtor 3 (7 : Nat)) (sizeValueCtor 4 (7 : Nat))

/-- C9: for every array and index `i`, `At(i)` fails (`none`, modelling a
thrown `std::out_of_range`) exactly when `i ≥ size()` — in particular
`At(size())` always fails — and leaves the array state unmodified; when
`i < size()` it succeeds, returning the live element at index `i` — in
particular `At(size()-1)` succeeds on a non-empty array. -/
theorem C9_at_checked_access (v : SimpleVector α) (i : Nat) :
    ((v.At i).1 = none ↔ v.GetSize ≤ i) ∧
    (v.At v.GetSize).1 = none ∧
    (i < v.GetSize → (v.At i).1 = some (elementAt v i)) ∧
    (v.IsEmpty = false → (v.At (v.GetSize - 1)).1 = some (elementAt v (v.GetSize - 1))) ∧
    (v.At i).2 = v := by
  refine ⟨?_, ?_, ?_, ?_, ?_⟩
  · by_cases h : v.size_ ≤ i
    · rw [SimpleVector.At, if_pos h]
      simpa using h
    · rw [SimpleVector.At, if_neg h]
      constructor
      · intro hsome
        simp at hsome
      · intro hle
        exact absurd hle h
  · rw [SimpleVector.At, if_pos (show v.GetSize ≥ v.size_ from Nat.le_refl v.size_)]
  · intro hi
    have h : ¬ (v.GetSize ≤ i) := by omega
    rw [SimpleVector.At, if_neg (show ¬ (i ≥ v.size_) from h)]
    rfl
  · intro hne
    have h0 : v.size_ ≠ 0 := by
      intro h0
      rw [SimpleVector.IsEmpty, h0] at hne
      simp at hne
    have h : ¬ (v.size_ ≤ v.size_ - 1) := by omega
    rw [SimpleVector.At, if_neg (show ¬ (v.GetSize - 1 ≥ v.size_) from h)]
    rfl
  · rw [SimpleVector.At]
    split
    · rfl
    · rfl

/-- Witness for C9 at the concrete input `[4, 5]` with index 1. -/
theorem C9_at_checked_access_witness :
    (((initListCtor [4, 5] : SimpleVector Nat).At 1).1 = none ↔
      (initListCtor [4, 5] : SimpleVector Nat).GetSize ≤ 1) ∧
    ((initListCtor [4, 5] : SimpleVector Nat).At
      (initListCtor [4, 5] : SimpleVector Nat).GetSize).1 = none ∧
    (1 < (initListCtor [4, 5] : SimpleVector Nat).GetSize →
      ((initListCtor [4, 5] : SimpleVector Nat).At 1).1 =
        some (elementAt (initListCtor [4, 5] : SimpleVector Nat) 1)) ∧
    ((initListCtor [4, 5] : SimpleVector Nat).IsEmpty = false →
      ((initListCtor [4, 5] : SimpleVector Nat).At
        ((initListCtor [4, 5] : SimpleVector Nat).GetSize - 1)).1 =
        some (elementAt (initListCtor [4, 5] : SimpleVector Nat)
          ((initListCtor [4, 5] : SimpleVector Nat).GetSize - 1))) ∧
    ((initListCtor [4, 5] : SimpleVector Nat).At 1).2 =
      (initListCtor [4, 5] : SimpleVector Nat) :=
  C9_at_checked_access (initListCtor [4, 5]) 1

end SimpleVectorSpec
